import Mathlib

/-!
Shallow embedding of the R1CS binary parser (`src/r1cs.rs`).

Bytes are modelled as natural numbers and a file as a `List Nat`.  The
seekable file handle of the Rust code is modelled by passing the whole
byte list together with an explicit cursor position; `read_exact` fails
(the Rust `io::Error`) exactly when the requested range runs past the
end of the data, and seeking is cursor assignment, which (as for a real
file) can move past the end without error.  The arkworks field `Fr`
(the BLS12-381 scalar field) is modelled by the canonical
representative of a residue class: a natural number reduced modulo the
prime `frModulus`; `Fr::from_le_bytes_mod_order` is little-endian
interpretation of the bytes followed by that reduction.
-/

/-- The modulus of the BLS12-381 scalar field `Fr` used via `ark_bls12_381`. -/
def frModulus : Nat :=
  52435875175126190479447740508185965837690552500527637822603658699938581184513

/-- Field elements are modelled by their canonical representative below `frModulus`. -/
abbrev Fr := Nat

/-- `Fr::zero()`, the additive identity. -/
def Fr.zero : Fr := 0

/-- Little-endian interpretation of a byte list as a natural number. -/
def leBytesToNat : List Nat → Nat
  | [] => 0
  | b :: bs => b + 256 * leBytesToNat bs

/-- `Fr::from_le_bytes_mod_order`: interpret little-endian bytes, reduce mod the prime. -/
def Fr.from_le_bytes_mod_order (bytes : List Nat) : Fr :=
  leBytesToNat bytes % frModulus

/-- The `ark_serialize::SerializationError` result type of `deserialize_fr`
(no branch of the function ever produces it). -/
inductive SerializationError
  | invalidData
deriving DecidableEq

/-- `R1CS::deserialize_fr`: walk the bytes from most significant to least
significant, discarding zero bytes until the first nonzero byte is seen
(the `started` flag of the Rust loop); if everything was zero return
`Fr::zero()`, otherwise reverse the kept bytes back to little-endian order
and reduce them with `Fr::from_le_bytes_mod_order`. -/
def deserialize_fr (bytes : List Nat) : Except SerializationError Fr :=
  let meaningful_bytes := bytes.reverse.dropWhile (fun b => b == 0)
  if meaningful_bytes.isEmpty then .ok Fr.zero
  else .ok (Fr.from_le_bytes_mod_order meaningful_bytes.reverse)

theorem leBytesToNat_append_zero (l : List Nat) :
    leBytesToNat (l ++ [0]) = leBytesToNat l := by
  induction l with
  | nil => simp [leBytesToNat]
  | cons b bs ih => simp [leBytesToNat, ih]

theorem leBytesToNat_dropWhile_zero (m : List Nat) :
    leBytesToNat ((m.dropWhile (fun b => b == 0)).reverse) = leBytesToNat m.reverse := by
  induction m with
  | nil => rfl
  | cons b bs ih =>
    by_cases hb : b = 0
    · subst hb
      rw [List.dropWhile_cons_of_pos (by simp), List.reverse_cons,
        leBytesToNat_append_zero, ih]
    · rw [List.dropWhile_cons_of_neg (by simp [hb])]

/-- The codec always succeeds and returns the canonical residue of the
little-endian value of the whole input. -/
theorem deserialize_fr_eq (bytes : List Nat) :
    deserialize_fr bytes = .ok (leBytesToNat bytes % frModulus) := by
  unfold deserialize_fr
  have hval : leBytesToNat ((bytes.reverse.dropWhile (fun b => b == 0)).reverse)
      = leBytesToNat bytes := by
    rw [leBytesToNat_dropWhile_zero, List.reverse_reverse]
  by_cases h : (bytes.reverse.dropWhile (fun b => b == 0)).isEmpty
  · have hnil : bytes.reverse.dropWhile (fun b => b == 0) = [] := by
      simpa [List.isEmpty_iff] using h
    rw [hnil] at hval
    simp only [hnil, List.isEmpty_nil, if_pos]
    have : leBytesToNat bytes = 0 := by simpa [leBytesToNat] using hval.symm
    simp [Fr.zero, this]
  · simp only [if_neg h, Fr.from_le_bytes_mod_order, hval]

/-- The typed decode errors of `R1CS::read` (the distinct `io::Error`
payloads constructed in `src/r1cs.rs`, plus the propagated raw I/O
failure of an out-of-range read). -/
inductive ParseError
  | ioFailure
  | badMagic
  | unsupportedVersion (v : Nat)
  | missingHeaderSection
  | fieldDecodeFailure
deriving DecidableEq

/-- A decoding step: given the file bytes and the cursor, produce a value
and the new cursor, or fail. -/
abbrev DStep (α : Type) := List Nat → Nat → Except ParseError (α × Nat)

/-- Sequencing of decoding steps on the shared file handle. -/
def dbind {α β : Type} (m : DStep α) (f : α → DStep β) : DStep β := fun d p =>
  match m d p with
  | .error e => .error e
  | .ok (a, q) => f a d q

/-- A step that reads nothing and returns a value. -/
def dpure {α : Type} (a : α) : DStep α := fun _ p => .ok (a, p)

/-- A step that fails with a typed error. -/
def dfail {α : Type} (e : ParseError) : DStep α := fun _ _ => .error e

/-- `file.read_exact` into an `n`-byte buffer: succeeds exactly when `n`
bytes remain at the cursor. -/
def readExact (n : Nat) : DStep (List Nat) := fun d p =>
  if p + n ≤ d.length then .ok ((d.drop p).take n, p + n) else .error .ioFailure

/-- `file.read_u32::<LittleEndian>()`. -/
def readU32 : DStep Nat :=
  dbind (readExact 4) fun bs => dpure (leBytesToNat bs)

/-- `file.read_u64::<LittleEndian>()`. -/
def readU64 : DStep Nat :=
  dbind (readExact 8) fun bs => dpure (leBytesToNat bs)

/-- `R1CSHeader` from `src/r1cs.rs`. -/
structure R1CSHeader where
  field_size : Nat
  prime_bytes : List Nat
  n_wires : Nat
  n_pub_out : Nat
  n_pub_in : Nat
  n_prvt_in : Nat
  n_constraints : Nat
deriving DecidableEq

/-- A term of a linear combination: wire index and coefficient. -/
structure Term where
  wire_id : Nat
  coefficient : Fr
deriving DecidableEq

/-- One R1CS constraint: the three linear combinations A, B, C. -/
structure R1CSConstraint where
  a_terms : List Term
  b_terms : List Term
  c_terms : List Term
deriving DecidableEq

/-- The parsed document: header plus ordered constraint list. -/
structure R1CS where
  header : R1CSHeader
  constraints : List R1CSConstraint
deriving DecidableEq

/-- The `SectionInfo` record of the first scanning pass of `R1CS::read`:
type tag, start offset of the body, body length. -/
structure SectionInfo where
  section_type : Nat
  position : Nat
  size : Nat
deriving DecidableEq

/-- `R1CS::read_header_section`: the header fields, strictly in file order. -/
def read_header_section : DStep R1CSHeader :=
  dbind readU32 fun field_size =>
  dbind (readExact field_size) fun prime_bytes =>
  dbind readU32 fun n_wires =>
  dbind readU32 fun n_pub_out =>
  dbind readU32 fun n_pub_in =>
  dbind readU32 fun n_prvt_in =>
  dbind readU64 fun _n_labels =>
  dbind readU32 fun n_constraints =>
  dpure ⟨field_size, prime_bytes, n_wires, n_pub_out, n_pub_in, n_prvt_in, n_constraints⟩

/-- The term-reading loop of `R1CS::read_linear_combination`: `n` records,
each a `u32` wire id followed by `field_size` coefficient bytes fed to
`deserialize_fr`; a codec error is surfaced as `FieldDecodeFailure`. -/
def readTerms (field_size : Nat) : Nat → DStep (List Term)
  | 0 => dpure []
  | n + 1 =>
    dbind readU32 fun wire_id =>
    dbind (readExact field_size) fun coef_bytes =>
    match deserialize_fr coef_bytes with
    | .error _ => dfail .fieldDecodeFailure
    | .ok coefficient =>
      dbind (readTerms field_size n) fun terms =>
      dpure (⟨wire_id, coefficient⟩ :: terms)

/-- `R1CS::read_linear_combination`: a `u32` term count, then that many terms. -/
def read_linear_combination (field_size : Nat) : DStep (List Term) :=
  dbind readU32 fun term_count => readTerms field_size term_count

/-- The constraint loop of `R1CS::read_constraint_section`: `n` constraints,
each three linear combinations decoded in the order A, B, C. -/
def readConstraints (field_size : Nat) : Nat → DStep (List R1CSConstraint)
  | 0 => dpure []
  | n + 1 =>
    dbind (read_linear_combination field_size) fun a_terms =>
    dbind (read_linear_combination field_size) fun b_terms =>
    dbind (read_linear_combination field_size) fun c_terms =>
    dbind (readConstraints field_size n) fun rest =>
    dpure (⟨a_terms, b_terms, c_terms⟩ :: rest)

/-- `R1CS::read_constraint_section`: `header.n_constraints` iterations of
the constraint loop, using the header's `field_size`. -/
def read_constraint_section (header : R1CSHeader) : DStep (List R1CSConstraint) :=
  readConstraints header.field_size header.n_constraints

/-- The section-table loop of `R1CS::read`: for each section read a `u32`
type tag and a `u64` byte length, record the cursor as the body's start
offset, and seek past the body. -/
def readSections : Nat → DStep (List SectionInfo)
  | 0 => dpure []
  | n + 1 =>
    dbind readU32 fun section_type =>
    dbind readU64 fun section_size => fun d p =>
      match readSections n d (p + section_size) with
      | .error e => .error e
      | .ok (rest, q) => .ok (⟨section_type, p, section_size⟩ :: rest, q)

/-- The magic tag `"r1cs"` as bytes. -/
def magicBytes : List Nat := [114, 49, 99, 115]

/-- The first pass of `R1CS::read`: magic check, version check, section
count, then the section table. -/
def sectionScan (data : List Nat) : Except ParseError (List SectionInfo) :=
  match readExact 4 data 0 with
  | .error e => .error e
  | .ok (magic, p) =>
    if magic ≠ magicBytes then .error .badMagic
    else
      match readU32 data p with
      | .error e => .error e
      | .ok (version, p) =>
        if version ≠ 1 then .error (.unsupportedVersion version)
        else
          match readU32 data p with
          | .error e => .error e
          | .ok (num_sections, p) =>
            match readSections num_sections data p with
            | .error e => .error e
            | .ok (sections, _) => .ok sections

/-- `R1CS::read`: scan the section table, decode the first HEADER(1)
section (failing if there is none), then decode the first CONSTRAINTS(2)
section if present, else keep the initial empty constraint list. -/
def R1CS.read (data : List Nat) : Except ParseError R1CS :=
  match sectionScan data with
  | .error e => .error e
  | .ok sections =>
    match sections.find? (fun s => s.section_type == 1) with
    | none => .error .missingHeaderSection
    | some hsec =>
      match read_header_section data hsec.position with
      | .error e => .error e
      | .ok (header, _) =>
        match sections.find? (fun s => s.section_type == 2) with
        | none => .ok ⟨header, []⟩
        | some csec =>
          match read_constraint_section header data csec.position with
          | .error e => .error e
          | .ok (constraints, _) => .ok ⟨header, constraints⟩

/-- `R1CS::num_wires`. -/
def R1CS.num_wires (self : R1CS) : Nat := self.header.n_wires

/-- `R1CS::num_public_outputs`. -/
def R1CS.num_public_outputs (self : R1CS) : Nat := self.header.n_pub_out

/-- `R1CS::num_public_inputs`. -/
def R1CS.num_public_inputs (self : R1CS) : Nat := self.header.n_pub_in

/-- `R1CS::num_private_inputs`. -/
def R1CS.num_private_inputs (self : R1CS) : Nat := self.header.n_prvt_in

/-- `R1CS::num_constraints`: the header's declared count. -/
def R1CS.num_constraints (self : R1CS) : Nat := self.header.n_constraints

/-- `R1CS::prime_field_modulus`: the raw prime bytes from the header. -/
def R1CS.prime_field_modulus (self : R1CS) : List Nat := self.header.prime_bytes

/-- Claim C1: the field element codec is many-to-one in a residue-respecting
way — for every `field_size` and any two raw little-endian byte strings of
that length encoding the same integer residue modulo the field's prime,
`deserialize_fr` yields the identical canonical field element. -/
theorem deserialize_fr_residue_invariant (field_size : Nat) (b1 b2 : List Nat)
    (h1 : b1.length = field_size) (h2 : b2.length = field_size)
    (hres : leBytesToNat b1 % frModulus = leBytesToNat b2 % frModulus) :
    deserialize_fr b1 = deserialize_fr b2 := by
  rw [deserialize_fr_eq, deserialize_fr_eq, hres]

/-- The 32-byte little-endian encoding of the integer 1. -/
def oneBytes32 : List Nat := 1 :: List.replicate 31 0

/-- The 32-byte little-endian encoding of `frModulus + 1`, a non-canonical
raw encoding of the residue 1. -/
def onePlusModulusBytes32 : List Nat :=
  [2, 0, 0, 0, 255, 255, 255, 255, 254, 91, 254, 255, 2, 164, 189, 83,
   5, 216, 161, 9, 8, 216, 57, 51, 72, 125, 157, 41, 83, 167, 237, 115]

theorem deserialize_fr_residue_invariant_witness :
    deserialize_fr oneBytes32 = deserialize_fr onePlusModulusBytes32 :=
  deserialize_fr_residue_invariant 32 oneBytes32 onePlusModulusBytes32
    (by decide) (by decide) (by decide)

/-- Claim C5: for every `field_size`, decoding an all-zero coefficient byte
string yields the field's additive identity. -/
theorem deserialize_fr_all_zero (field_size : Nat) :
    deserialize_fr (List.replicate field_size 0) = .ok Fr.zero := by
  rw [deserialize_fr_eq]
  have h : leBytesToNat (List.replicate field_size 0) = 0 := by
    induction field_size with
    | zero => rfl
    | succ k ih => simp [List.replicate, leBytesToNat, ih]
  simp [h, Fr.zero]

theorem readExact_error {n : Nat} {d : List Nat} {p : Nat} {e : ParseError}
    (h : readExact n d p = .error e) : e = .ioFailure := by
  unfold readExact at h
  split at h
  · exact absurd h (by simp)
  · exact (Except.error.inj h).symm

theorem readU32_error {d : List Nat} {p : Nat} {e : ParseError}
    (h : readU32 d p = .error e) : e = .ioFailure := by
  unfold readU32 dbind at h
  cases hr : readExact 4 d p with
  | error e2 =>
    rw [hr] at h
    injection h with h'
    exact h' ▸ readExact_error hr
  | ok v =>
    rw [hr] at h
    simp [dpure] at h

theorem dpure_ne_error {α : Type} {a : α} {d : List Nat} {p : Nat} {e : ParseError} :
    dpure a d p ≠ .error e := by
  simp [dpure]

theorem dbind_error_cases {α β : Type} {m : DStep α} {f : α → DStep β} {d : List Nat}
    {p : Nat} {e : ParseError} (h : dbind m f d p = .error e) :
    m d p = .error e ∨ ∃ a q, m d p = .ok (a, q) ∧ f a d q = .error e := by
  unfold dbind at h
  cases hm : m d p with
  | error e2 =>
    rw [hm] at h
    left
    simpa using h
  | ok v =>
    right
    obtain ⟨a, q⟩ := v
    rw [hm] at h
    exact ⟨a, q, rfl, by simpa using h⟩

theorem readTerms_ne_fieldDecodeFailure (field_size : Nat) :
    ∀ (n : Nat) (d : List Nat) (p : Nat),
      readTerms field_size n d p ≠ .error .fieldDecodeFailure := by
  intro n
  induction n with
  | zero =>
    intro d p h
    simp [readTerms, dpure] at h
  | succ k ih =>
    intro d p h
    unfold readTerms at h
    rcases dbind_error_cases h with h32 | ⟨w, p1, h32, h⟩
    · exact absurd (readU32_error h32) (by decide)
    · rcases dbind_error_cases h with hre | ⟨cb, p2, hre, h⟩
      · exact absurd (readExact_error hre) (by decide)
      · rw [deserialize_fr_eq cb] at h
        rcases dbind_error_cases h with hrt | ⟨ts, p3, hrt, h⟩
        · exact ih d p2 hrt
        · exact dpure_ne_error h

/-- Claim C4: the codec is total — decoding any byte string of the declared
`field_size` length succeeds with a field element — so the
`FieldDecodeFailure` branch of the linear combination decoder is
unreachable. -/
theorem deserialize_fr_total (field_size : Nat) (bytes : List Nat)
    (hlen : bytes.length = field_size) :
    (∃ v, deserialize_fr bytes = .ok v) ∧
    ∀ (d : List Nat) (p : Nat),
      read_linear_combination field_size d p ≠ .error .fieldDecodeFailure := by
  refine ⟨⟨leBytesToNat bytes % frModulus, deserialize_fr_eq bytes⟩, ?_⟩
  intro d p h
  unfold read_linear_combination at h
  rcases dbind_error_cases h with h32 | ⟨tc, q, h32, h⟩
  · exact absurd (readU32_error h32) (by decide)
  · exact readTerms_ne_fieldDecodeFailure field_size tc d q h

theorem deserialize_fr_total_witness :
    (∃ v, deserialize_fr [5, 7] = .ok v) ∧
    ∀ (d : List Nat) (p : Nat),
      read_linear_combination 2 d p ≠ .error .fieldDecodeFailure :=
  deserialize_fr_total 2 [5, 7] (by rfl)

theorem dbind_ok_cases {α β : Type} {m : DStep α} {f : α → DStep β} {d : List Nat}
    {p : Nat} {b : β} {q : Nat} (h : dbind m f d p = .ok (b, q)) :
    ∃ a r, m d p = .ok (a, r) ∧ f a d r = .ok (b, q) := by
  unfold dbind at h
  cases hm : m d p with
  | error e =>
    rw [hm] at h
    simp at h
  | ok v =>
    obtain ⟨a, r⟩ := v
    rw [hm] at h
    exact ⟨a, r, rfl, by simpa using h⟩

/-- The constraint loop always returns exactly as many constraints as it
was asked to decode. -/
theorem readConstraints_length (field_size : Nat) :
    ∀ (n : Nat) (d : List Nat) (p : Nat) (cs : List R1CSConstraint) (q : Nat),
      readConstraints field_size n d p = .ok (cs, q) → cs.length = n := by
  intro n
  induction n with
  | zero =>
    intro d p cs q h
    simp only [readConstraints, dpure] at h
    obtain ⟨h1, _⟩ := by simpa using h
    simp [← h1]
  | succ k ih =>
    intro d p cs q h
    unfold readConstraints at h
    obtain ⟨a, p1, ha, h⟩ := dbind_ok_cases h
    obtain ⟨b, p2, hb, h⟩ := dbind_ok_cases h
    obtain ⟨c, p3, hc, h⟩ := dbind_ok_cases h
    obtain ⟨rest, p4, hrest, h⟩ := dbind_ok_cases h
    have hcs : cs = ⟨a, b, c⟩ :: rest := by
      obtain ⟨h1, _⟩ := by simpa [dpure] using h
      exact h1.symm
    rw [hcs, List.length_cons, ih d p3 rest p4 hrest]

/-- Claim C2: for a well-formed file whose section table is scanned
successfully and contains a CONSTRAINTS(2) section, a successful parse
returns exactly the declared number of constraints, each decoded as the
three linear combinations A, B, C in file order. -/
theorem read_constraint_count_matches_header (data : List Nat) (ss : List SectionInfo)
    (csec : SectionInfo) (doc : R1CS)
    (hscan : sectionScan data = .ok ss)
    (hfind : ss.find? (fun s => s.section_type == 2) = some csec)
    (hok : R1CS.read data = .ok doc) :
    doc.constraints.length = doc.header.n_constraints := by
  unfold R1CS.read at hok
  rw [hscan] at hok
  simp only [] at hok
  cases hh : ss.find? (fun s => s.section_type == 1) with
  | none =>
    rw [hh] at hok
    simp at hok
  | some hsec =>
    rw [hh] at hok
    simp only [] at hok
    cases hhd : read_header_section data hsec.position with
    | error e =>
      rw [hhd] at hok
      simp at hok
    | ok v =>
      obtain ⟨header, q⟩ := v
      rw [hhd] at hok
      simp only [] at hok
      rw [hfind] at hok
      simp only [] at hok
      cases hcs : read_constraint_section header data csec.position with
      | error e =>
        rw [hcs] at hok
        simp at hok
      | ok v2 =>
        obtain ⟨cs, q2⟩ := v2
        rw [hcs] at hok
        have hdoc : doc = ⟨header, cs⟩ := by
          have := by simpa using hok
          exact this.symm
        subst hdoc
        exact readConstraints_length header.field_size header.n_constraints data
          csec.position cs q2 hcs

/-- Claim C7: a file whose first four bytes are not the literal `"r1cs"`
fails with `BadMagic`, whatever the rest of the file holds. -/
theorem read_bad_magic_error (data : List Nat)
    (hlen : 4 ≤ data.length) (hmag : data.take 4 ≠ magicBytes) :
    R1CS.read data = .error .badMagic := by
  have hre : readExact 4 data 0 = .ok (data.take 4, 4) := by
    unfold readExact
    rw [if_pos (by omega)]
    simp
  unfold R1CS.read sectionScan
  rw [hre]
  simp only []
  rw [if_pos hmag]

/-- A wrong-magic four-byte file. -/
def badMagicFile : List Nat := [0, 0, 0, 0]

theorem read_bad_magic_error_witness : R1CS.read badMagicFile = .error .badMagic :=
  read_bad_magic_error badMagicFile (by decide) (by decide)

/-- Claim C8: with the correct magic, a version field other than 1 fails
with `UnsupportedVersion` carrying the offending little-endian value. -/
theorem read_unsupported_version_error (data : List Nat)
    (hlen : 8 ≤ data.length) (hmag : data.take 4 = magicBytes)
    (hv : leBytesToNat ((data.drop 4).take 4) ≠ 1) :
    R1CS.read data
      = .error (.unsupportedVersion (leBytesToNat ((data.drop 4).take 4))) := by
  have hre : readExact 4 data 0 = .ok (data.take 4, 4) := by
    unfold readExact
    rw [if_pos (by omega)]
    simp
  have hr32 : readU32 data 4 = .ok (leBytesToNat ((data.drop 4).take 4), 8) := by
    have hre2 : readExact 4 data 4 = .ok ((data.drop 4).take 4, 8) := by
      unfold readExact
      rw [if_pos (by omega)]
    unfold readU32 dbind
    rw [hre2]
    simp [dpure]
  unfold R1CS.read sectionScan
  rw [hre]
  simp only []
  rw [hmag, if_neg (by simp)]
  rw [hr32]
  simp only []
  rw [if_pos hv]

/-- A correct-magic file declaring version 2. -/
def versionTwoFile : List Nat := magicBytes ++ [2, 0, 0, 0]

theorem read_unsupported_version_error_witness :
    R1CS.read versionTwoFile = .error (.unsupportedVersion 2) := by
  have h := read_unsupported_version_error versionTwoFile (by decide) (by decide)
    (by decide)
  exact h

/-- Claim C6: when the scanned section table holds no HEADER(1) section,
the parse fails with `MissingHeaderSection`, regardless of the other
sections. -/
theorem read_missing_header_error (data : List Nat) (ss : List SectionInfo)
    (hscan : sectionScan data = .ok ss)
    (hno : ∀ s ∈ ss, s.section_type ≠ 1) :
    R1CS.read data = .error .missingHeaderSection := by
  have hfind : ss.find? (fun s => s.section_type == 1) = none := by
    rw [List.find?_eq_none]
    intro s hs
    simpa using hno s hs
  unfold R1CS.read
  rw [hscan]
  simp only []
  rw [hfind]

/-- A file whose only section has the unrecognized type 3. -/
def noHeaderFile : List Nat :=
  magicBytes ++ [1, 0, 0, 0] ++ [1, 0, 0, 0] ++ [3, 0, 0, 0] ++ [0, 0, 0, 0, 0, 0, 0, 0]

theorem read_missing_header_error_witness :
    R1CS.read noHeaderFile = .error .missingHeaderSection :=
  read_missing_header_error noHeaderFile [⟨3, 24, 0⟩] (by rfl) (by decide)

/-- A successful scan with a HEADER section but no CONSTRAINTS(2) section
parses to a document with the empty constraint list. -/
theorem read_no_constraints_aux {data : List Nat} {ss : List SectionInfo}
    {hsec : SectionInfo} {header : R1CSHeader} {q : Nat}
    (hscan : sectionScan data = .ok ss)
    (hfind : ss.find? (fun s => s.section_type == 1) = some hsec)
    (hhdr : read_header_section data hsec.position = .ok (header, q))
    (hno2 : ∀ s ∈ ss, s.section_type ≠ 2) :
    R1CS.read data = .ok ⟨header, []⟩ := by
  have hfind2 : ss.find? (fun s => s.section_type == 2) = none := by
    rw [List.find?_eq_none]
    intro s hs
    simpa using hno2 s hs
  unfold R1CS.read
  rw [hscan]
  simp only []
  rw [hfind]
  simp only []
  rw [hhdr]
  simp only []
  rw [hfind2]

/-- Claim C9: a file with a HEADER section but no CONSTRAINTS(2) section
parses successfully to a document whose constraint list is empty, even
when the header declares a positive constraint count. -/
theorem read_no_constraints_section_permissive (data : List Nat) (ss : List SectionInfo)
    (hsec : SectionInfo) (header : R1CSHeader) (q : Nat)
    (hscan : sectionScan data = .ok ss)
    (hfind : ss.find? (fun s => s.section_type == 1) = some hsec)
    (hhdr : read_header_section data hsec.position = .ok (header, q))
    (hno2 : ∀ s ∈ ss, s.section_type ≠ 2) :
    R1CS.read data = .ok ⟨header, []⟩ :=
  read_no_constraints_aux hscan hfind hhdr hno2

/-- The header body of the running example: `field_size = 1`, prime byte
251, 4 wires, 1 public output, 1 public input, 0 private inputs, 0
labels, 1 constraint. -/
def exampleHeaderBody : List Nat :=
  [1, 0, 0, 0] ++ [251] ++ [4, 0, 0, 0] ++ [1, 0, 0, 0] ++ [1, 0, 0, 0] ++
  [0, 0, 0, 0] ++ [0, 0, 0, 0, 0, 0, 0, 0] ++ [1, 0, 0, 0]

/-- The header value decoded from `exampleHeaderBody`. -/
def exampleHeader : R1CSHeader := ⟨1, [251], 4, 1, 1, 0, 1⟩

/-- A file holding only a HEADER section that declares one constraint. -/
def headerOnlyFile : List Nat :=
  magicBytes ++ [1, 0, 0, 0] ++ [1, 0, 0, 0] ++
  [1, 0, 0, 0] ++ [33, 0, 0, 0, 0, 0, 0, 0] ++ exampleHeaderBody

theorem read_no_constraints_section_permissive_witness :
    R1CS.read headerOnlyFile = .ok ⟨exampleHeader, []⟩ :=
  read_no_constraints_section_permissive headerOnlyFile [⟨1, 24, 33⟩] ⟨1, 24, 33⟩
    exampleHeader 57 (by rfl) (by rfl) (by rfl) (by decide)

/-- Claim C10: `num_constraints()` reports the header's declared count, not
the decoded list's length; for a document parsed from a file with a
positive declared count but no CONSTRAINTS section, the two differ. -/
theorem num_constraints_from_header (data : List Nat) (ss : List SectionInfo)
    (hsec : SectionInfo) (header : R1CSHeader) (q : Nat) (doc : R1CS)
    (hscan : sectionScan data = .ok ss)
    (hfind : ss.find? (fun s => s.section_type == 1) = some hsec)
    (hhdr : read_header_section data hsec.position = .ok (header, q))
    (hno2 : ∀ s ∈ ss, s.section_type ≠ 2)
    (hok : R1CS.read data = .ok doc)
    (hpos : 0 < header.n_constraints) :
    doc.num_constraints = doc.header.n_constraints ∧
    doc.num_constraints ≠ doc.constraints.length := by
  have h1 := read_no_constraints_aux hscan hfind hhdr hno2
  rw [h1] at hok
  injection hok with h2
  subst h2
  refine ⟨rfl, ?_⟩
  simp only [R1CS.num_constraints, List.length_nil]
  omega

theorem num_constraints_from_header_witness :
    (R1CS.mk exampleHeader []).num_constraints
        = (R1CS.mk exampleHeader []).header.n_constraints ∧
    (R1CS.mk exampleHeader []).num_constraints
        ≠ (R1CS.mk exampleHeader []).constraints.length :=
  num_constraints_from_header headerOnlyFile [⟨1, 24, 33⟩] ⟨1, 24, 33⟩
    exampleHeader 57 ⟨exampleHeader, []⟩ (by rfl) (by rfl) (by rfl) (by decide)
    (by rfl) (by decide)

/-- The constraint-section body of the running example: one constraint,
A = {(wire 1, coefficient 1)}, B = {(wire 2, 1)}, C = {(wire 3, 1)}. -/
def exampleConstraintBody : List Nat :=
  [1, 0, 0, 0, 1, 0, 0, 0, 1] ++ [1, 0, 0, 0, 2, 0, 0, 0, 1] ++
  [1, 0, 0, 0, 3, 0, 0, 0, 1]

/-- A complete well-formed file: HEADER section then CONSTRAINTS section. -/
def exampleFile : List Nat :=
  magicBytes ++ [1, 0, 0, 0] ++ [2, 0, 0, 0] ++
  ([1, 0, 0, 0] ++ [33, 0, 0, 0, 0, 0, 0, 0] ++ exampleHeaderBody) ++
  ([2, 0, 0, 0] ++ [27, 0, 0, 0, 0, 0, 0, 0] ++ exampleConstraintBody)

/-- The document parsed from `exampleFile`. -/
def exampleDoc : R1CS :=
  ⟨exampleHeader, [⟨[⟨1, 1⟩], [⟨2, 1⟩], [⟨3, 1⟩]⟩]⟩

theorem read_constraint_count_matches_header_witness :
    exampleDoc.constraints.length = exampleDoc.header.n_constraints :=
  read_constraint_count_matches_header exampleFile
    [⟨1, 24, 33⟩, ⟨2, 69, 27⟩] ⟨2, 69, 27⟩ exampleDoc (by rfl) (by rfl) (by rfl)

/-- Position-shift invariance of a decoding step: a step that succeeds on a
byte segment succeeds identically — same value, cursor shifted — when the
segment is embedded into a larger file, because every read stays inside
the segment. -/
def Frames {α : Type} (m : DStep α) : Prop :=
  ∀ (pre d suf : List Nat) (p : Nat) (a : α) (q : Nat),
    m d p = .ok (a, q) →
    m (pre ++ (d ++ suf)) (pre.length + p) = .ok (a, pre.length + q)

theorem frames_dpure {α : Type} (a : α) : Frames (dpure a) := by
  intro pre d suf p b q h
  simp only [dpure] at h ⊢
  obtain ⟨h1, h2⟩ := by simpa using h
  rw [h1, h2]

theorem frames_dbind {α β : Type} {m : DStep α} {f : α → DStep β}
    (hm : Frames m) (hf : ∀ a, Frames (f a)) : Frames (dbind m f) := by
  intro pre d suf p b q h
  obtain ⟨a, r, ha, hb⟩ := dbind_ok_cases h
  unfold dbind
  rw [hm pre d suf p a r ha]
  exact hf a pre d suf r b q hb

theorem frames_readExact (n : Nat) : Frames (readExact n) := by
  intro pre d suf p bs q h
  unfold readExact at h ⊢
  split at h
  · rename_i hle
    obtain ⟨h1, h2⟩ := by simpa using h
    rw [if_pos (by simp only [List.length_append]; omega)]
    have hdrop : (pre ++ (d ++ suf)).drop (pre.length + p) = d.drop p ++ suf := by
      rw [List.drop_append, List.drop_append_of_le_length (by omega)]
    rw [hdrop]
    have htake : (d.drop p ++ suf).take n = (d.drop p).take n := by
      apply List.take_append_of_le_length
      rw [List.length_drop]
      omega
    rw [htake, h1]
    have : pre.length + p + n = pre.length + q := by omega
    rw [this]
  · exact absurd h (by simp)

theorem frames_readU32 : Frames readU32 :=
  frames_dbind (frames_readExact 4) fun bs => frames_dpure (leBytesToNat bs)

theorem frames_readU64 : Frames readU64 :=
  frames_dbind (frames_readExact 8) fun bs => frames_dpure (leBytesToNat bs)

theorem frames_read_header_section : Frames read_header_section := by
  unfold read_header_section
  exact frames_dbind frames_readU32 fun fs =>
    frames_dbind (frames_readExact fs) fun pb =>
    frames_dbind frames_readU32 fun a =>
    frames_dbind frames_readU32 fun b =>
    frames_dbind frames_readU32 fun c =>
    frames_dbind frames_readU32 fun e =>
    frames_dbind frames_readU64 fun g =>
    frames_dbind frames_readU32 fun k =>
    frames_dpure _

theorem frames_dfail {α : Type} (e : ParseError) : Frames (dfail (α := α) e) := by
  intro pre d suf p b q h
  simp [dfail] at h

theorem frames_readTerms (field_size : Nat) :
    ∀ n, Frames (readTerms field_size n) := by
  intro n
  induction n with
  | zero => exact frames_dpure []
  | succ k ih =>
    unfold readTerms
    apply frames_dbind frames_readU32
    intro wire_id
    apply frames_dbind (frames_readExact field_size)
    intro coef_bytes
    simp only [deserialize_fr_eq coef_bytes]
    exact frames_dbind ih fun ts => frames_dpure _

theorem frames_read_linear_combination (field_size : Nat) :
    Frames (read_linear_combination field_size) :=
  frames_dbind frames_readU32 fun tc => frames_readTerms field_size tc

theorem frames_readConstraints (field_size : Nat) :
    ∀ n, Frames (readConstraints field_size n) := by
  intro n
  induction n with
  | zero => exact frames_dpure []
  | succ k ih =>
    unfold readConstraints
    exact frames_dbind (frames_read_linear_combination field_size) fun a =>
      frames_dbind (frames_read_linear_combination field_size) fun b =>
      frames_dbind (frames_read_linear_combination field_size) fun c =>
      frames_dbind ih fun rest => frames_dpure _

theorem frames_read_constraint_section (header : R1CSHeader) :
    Frames (read_constraint_section header) :=
  frames_readConstraints header.field_size header.n_constraints

/-- Little-endian 4-byte encoding of a `u32` value. -/
def u32le (n : Nat) : List Nat :=
  [n % 256, n / 256 % 256, n / 65536 % 256, n / 16777216 % 256]

/-- Little-endian 8-byte encoding of a `u64` value. -/
def u64le (n : Nat) : List Nat :=
  [n % 256, n / 256 % 256, n / 65536 % 256, n / 16777216 % 256,
   n / 4294967296 % 256, n / 1099511627776 % 256,
   n / 281474976710656 % 256, n / 72057594037927936 % 256]

theorem u32le_length (n : Nat) : (u32le n).length = 4 := rfl

theorem u64le_length (n : Nat) : (u64le n).length = 8 := rfl

theorem leBytesToNat_u32le {n : Nat} (h : n < 4294967296) :
    leBytesToNat (u32le n) = n := by
  simp only [u32le, leBytesToNat]
  omega

theorem leBytesToNat_u64le {n : Nat} (h : n < 18446744073709551616) :
    leBytesToNat (u64le n) = n := by
  simp only [u64le, leBytesToNat]
  omega

theorem readExact_at (pre mid suf : List Nat) (P n : Nat)
    (hpre : pre.length = P) (hmid : mid.length = n) :
    readExact n (pre ++ (mid ++ suf)) P = .ok (mid, P + n) := by
  subst hpre
  subst hmid
  unfold readExact
  rw [if_pos (by simp only [List.length_append]; omega)]
  rw [List.drop_left, List.take_left]

theorem readU32_at (pre suf : List Nat) (P n : Nat)
    (hpre : pre.length = P) (hn : n < 4294967296) :
    readU32 (pre ++ (u32le n ++ suf)) P = .ok (n, P + 4) := by
  unfold readU32 dbind
  rw [readExact_at pre (u32le n) suf P 4 hpre (u32le_length n)]
  simp [dpure, leBytesToNat_u32le hn]

theorem readU64_at (pre suf : List Nat) (P n : Nat)
    (hpre : pre.length = P) (hn : n < 18446744073709551616) :
    readU64 (pre ++ (u64le n ++ suf)) P = .ok (n, P + 8) := by
  unfold readU64 dbind
  rw [readExact_at pre (u64le n) suf P 8 hpre (u64le_length n)]
  simp [dpure, leBytesToNat_u64le hn]

/-- A serialized section: `u32` type tag, `u64` body length, body bytes. -/
def mkSection (section_type : Nat) (body : List Nat) : List Nat :=
  u32le section_type ++ (u64le body.length ++ body)

/-- A version-1 container with the magic tag and exactly two sections. -/
def mkFile2 (s1 s2 : List Nat) : List Nat :=
  magicBytes ++ (u32le 1 ++ (u32le 2 ++ (s1 ++ s2)))

theorem readSections_succ (n : Nat) : readSections (n + 1) =
    dbind readU32 fun section_type =>
    dbind readU64 fun section_size => fun d p =>
      match readSections n d (p + section_size) with
      | .error e => .error e
      | .ok (rest, q) => .ok (⟨section_type, p, section_size⟩ :: rest, q) := rfl

/-- Scanning a two-section container records both sections' type tags,
body offsets and body lengths, in file order. -/
theorem sectionScan_mkFile2 (t1 t2 : Nat) (b1 b2 : List Nat)
    (ht1 : t1 < 4294967296) (ht2 : t2 < 4294967296)
    (hb1 : b1.length < 18446744073709551616)
    (hb2 : b2.length < 18446744073709551616) :
    sectionScan (mkFile2 (mkSection t1 b1) (mkSection t2 b2))
      = .ok [⟨t1, 24, b1.length⟩, ⟨t2, 36 + b1.length, b2.length⟩] := by
  have hfile : mkFile2 (mkSection t1 b1) (mkSection t2 b2)
      = magicBytes ++ (u32le 1 ++ (u32le 2 ++ (u32le t1 ++ (u64le b1.length ++
        (b1 ++ (u32le t2 ++ (u64le b2.length ++ b2))))))) := by
    simp [mkFile2, mkSection, List.append_assoc]
  rw [hfile]
  set F := magicBytes ++ (u32le 1 ++ (u32le 2 ++ (u32le t1 ++ (u64le b1.length ++
    (b1 ++ (u32le t2 ++ (u64le b2.length ++ b2))))))) with hF
  have e0 : readExact 4 F 0 = .ok (magicBytes, 4) := by
    have h := readExact_at [] magicBytes
      (u32le 1 ++ (u32le 2 ++ (u32le t1 ++ (u64le b1.length ++
        (b1 ++ (u32le t2 ++ (u64le b2.length ++ b2))))))) 0 4 rfl rfl
    simpa [hF] using h
  have e1 : readU32 F 4 = .ok (1, 8) := by
    have h := readU32_at magicBytes
      (u32le 2 ++ (u32le t1 ++ (u64le b1.length ++
        (b1 ++ (u32le t2 ++ (u64le b2.length ++ b2)))))) 4 1 rfl (by norm_num)
    simpa [hF] using h
  have e2 : readU32 F 8 = .ok (2, 12) := by
    have h := readU32_at (magicBytes ++ u32le 1)
      (u32le t1 ++ (u64le b1.length ++ (b1 ++ (u32le t2 ++ (u64le b2.length ++ b2)))))
      8 2 (by simp [magicBytes, u32le_length]) (by norm_num)
    simpa [hF, List.append_assoc] using h
  have e3 : readU32 F 12 = .ok (t1, 16) := by
    have h := readU32_at (magicBytes ++ (u32le 1 ++ u32le 2))
      (u64le b1.length ++ (b1 ++ (u32le t2 ++ (u64le b2.length ++ b2))))
      12 t1 (by simp [magicBytes, u32le_length]) ht1
    simpa [hF, List.append_assoc] using h
  have e4 : readU64 F 16 = .ok (b1.length, 24) := by
    have h := readU64_at (magicBytes ++ (u32le 1 ++ (u32le 2 ++ u32le t1)))
      (b1 ++ (u32le t2 ++ (u64le b2.length ++ b2)))
      16 b1.length (by simp [magicBytes, u32le_length]) hb1
    simpa [hF, List.append_assoc] using h
  have e5 : readU32 F (24 + b1.length) = .ok (t2, 24 + b1.length + 4) := by
    have h := readU32_at
      (magicBytes ++ (u32le 1 ++ (u32le 2 ++ (u32le t1 ++ (u64le b1.length ++ b1)))))
      (u64le b2.length ++ b2) (24 + b1.length) t2
      (by simp [magicBytes, u32le_length, u64le_length]; omega) ht2
    simpa [hF, List.append_assoc] using h
  have e6 : readU64 F (24 + b1.length + 4) = .ok (b2.length, 24 + b1.length + 4 + 8) := by
    have h := readU64_at
      (magicBytes ++ (u32le 1 ++ (u32le 2 ++ (u32le t1 ++ (u64le b1.length ++
        (b1 ++ u32le t2)))))) b2 (24 + b1.length + 4) b2.length
      (by simp [magicBytes, u32le_length, u64le_length]; omega) hb2
    simpa [hF, List.append_assoc] using h
  have hs0 : readSections 0 F (24 + b1.length + 4 + 8 + b2.length)
      = .ok ([], 24 + b1.length + 4 + 8 + b2.length) := rfl
  have hs1 : readSections 1 F (24 + b1.length)
      = .ok ([⟨t2, 36 + b1.length, b2.length⟩], 24 + b1.length + 4 + 8 + b2.length) := by
    rw [show readSections 1 F (24 + b1.length)
        = readSections (0 + 1) F (24 + b1.length) from rfl]
    rw [readSections_succ]
    unfold dbind
    rw [e5]
    simp only []
    rw [e6]
    simp only []
    rw [hs0]
    simp only []
    rw [show 24 + b1.length + 4 + 8 = 36 + b1.length from by omega]
  have hs2 : readSections 2 F 12
      = .ok ([⟨t1, 24, b1.length⟩, ⟨t2, 36 + b1.length, b2.length⟩],
          24 + b1.length + 4 + 8 + b2.length) := by
    rw [show readSections 2 F 12 = readSections (1 + 1) F 12 from rfl]
    rw [readSections_succ]
    unfold dbind
    rw [e3]
    simp only []
    rw [e4]
    simp only []
    rw [hs1]
  unfold sectionScan
  rw [e0]
  simp only []
  rw [if_neg (by simp)]
  rw [e1]
  simp only []
  rw [if_neg (by simp)]
  rw [e2]
  simp only []
  rw [hs2]

/-- Claim C3: parsing is section-order-independent — a well-formed file
made of a HEADER section and a CONSTRAINTS section (each of whose bodies
decodes on its own) and the file with the two sections' byte positions
swapped parse to the identical Document. -/
theorem read_section_order_independent (hb cb : List Nat) (header : R1CSHeader)
    (cs : List R1CSConstraint) (ph pc : Nat)
    (hhlen : hb.length < 18446744073709551616)
    (hclen : cb.length < 18446744073709551616)
    (hh : read_header_section hb 0 = .ok (header, ph))
    (hc : read_constraint_section header cb 0 = .ok (cs, pc)) :
    R1CS.read (mkFile2 (mkSection 1 hb) (mkSection 2 cb)) = .ok ⟨header, cs⟩ ∧
    R1CS.read (mkFile2 (mkSection 2 cb) (mkSection 1 hb)) = .ok ⟨header, cs⟩ := by
  constructor
  · have hscan := sectionScan_mkFile2 1 2 hb cb (by norm_num) (by norm_num) hhlen hclen
    unfold R1CS.read
    rw [hscan]
    simp only []
    rw [show List.find? (fun s => s.section_type == 1)
        [⟨1, 24, hb.length⟩, ⟨2, 36 + hb.length, cb.length⟩]
        = some (⟨1, 24, hb.length⟩ : SectionInfo) from rfl]
    simp only []
    have hdr : read_header_section (mkFile2 (mkSection 1 hb) (mkSection 2 cb)) 24
        = .ok (header, 24 + ph) := by
      have h := frames_read_header_section
        (magicBytes ++ (u32le 1 ++ (u32le 2 ++ (u32le 1 ++ u64le hb.length))))
        hb (mkSection 2 cb) 0 header ph hh
      have hl : (magicBytes ++ (u32le 1 ++ (u32le 2 ++ (u32le 1 ++
          u64le hb.length)))).length = 24 := by
        simp [magicBytes, u32le_length, u64le_length]
      rw [hl, Nat.add_zero] at h
      simpa [mkFile2, mkSection, List.append_assoc] using h
    rw [hdr]
    simp only []
    rw [show List.find? (fun s => s.section_type == 2)
        [⟨1, 24, hb.length⟩, ⟨2, 36 + hb.length, cb.length⟩]
        = some (⟨2, 36 + hb.length, cb.length⟩ : SectionInfo) from rfl]
    simp only []
    have con : read_constraint_section header
        (mkFile2 (mkSection 1 hb) (mkSection 2 cb)) (36 + hb.length)
        = .ok (cs, 36 + hb.length + pc) := by
      have h := frames_read_constraint_section header
        (magicBytes ++ (u32le 1 ++ (u32le 2 ++ ((u32le 1 ++ (u64le hb.length ++ hb))
          ++ (u32le 2 ++ u64le cb.length))))) cb [] 0 cs pc hc
      have hl : (magicBytes ++ (u32le 1 ++ (u32le 2 ++ ((u32le 1 ++
          (u64le hb.length ++ hb)) ++ (u32le 2 ++ u64le cb.length))))).length
          = 36 + hb.length := by
        simp [magicBytes, u32le_length, u64le_length]
        omega
      rw [hl, Nat.add_zero] at h
      simpa [mkFile2, mkSection, List.append_assoc] using h
    rw [con]
  · have hscan := sectionScan_mkFile2 2 1 cb hb (by norm_num) (by norm_num) hclen hhlen
    unfold R1CS.read
    rw [hscan]
    simp only []
    rw [show List.find? (fun s => s.section_type == 1)
        [⟨2, 24, cb.length⟩, ⟨1, 36 + cb.length, hb.length⟩]
        = some (⟨1, 36 + cb.length, hb.length⟩ : SectionInfo) from rfl]
    simp only []
    have hdr : read_header_section (mkFile2 (mkSection 2 cb) (mkSection 1 hb))
        (36 + cb.length) = .ok (header, 36 + cb.length + ph) := by
      have h := frames_read_header_section
        (magicBytes ++ (u32le 1 ++ (u32le 2 ++ ((u32le 2 ++ (u64le cb.length ++ cb))
          ++ (u32le 1 ++ u64le hb.length))))) hb [] 0 header ph hh
      have hl : (magicBytes ++ (u32le 1 ++ (u32le 2 ++ ((u32le 2 ++
          (u64le cb.length ++ cb)) ++ (u32le 1 ++ u64le hb.length))))).length
          = 36 + cb.length := by
        simp [magicBytes, u32le_length, u64le_length]
        omega
      rw [hl, Nat.add_zero] at h
      simpa [mkFile2, mkSection, List.append_assoc] using h
    rw [hdr]
    simp only []
    rw [show List.find? (fun s => s.section_type == 2)
        [⟨2, 24, cb.length⟩, ⟨1, 36 + cb.length, hb.length⟩]
        = some (⟨2, 24, cb.length⟩ : SectionInfo) from rfl]
    simp only []
    have con : read_constraint_section header
        (mkFile2 (mkSection 2 cb) (mkSection 1 hb)) 24 = .ok (cs, 24 + pc) := by
      have h := frames_read_constraint_section header
        (magicBytes ++ (u32le 1 ++ (u32le 2 ++ (u32le 2 ++ u64le cb.length))))
        cb (mkSection 1 hb) 0 cs pc hc
      have hl : (magicBytes ++ (u32le 1 ++ (u32le 2 ++ (u32le 2 ++
          u64le cb.length)))).length = 24 := by
        simp [magicBytes, u32le_length, u64le_length]
      rw [hl, Nat.add_zero] at h
      simpa [mkFile2, mkSection, List.append_assoc] using h
    rw [con]

theorem read_section_order_independent_witness :
    R1CS.read (mkFile2 (mkSection 1 exampleHeaderBody)
        (mkSection 2 exampleConstraintBody))
      = .ok ⟨exampleHeader, [⟨[⟨1, 1⟩], [⟨2, 1⟩], [⟨3, 1⟩]⟩]⟩ ∧
    R1CS.read (mkFile2 (mkSection 2 exampleConstraintBody)
        (mkSection 1 exampleHeaderBody))
      = .ok ⟨exampleHeader, [⟨[⟨1, 1⟩], [⟨2, 1⟩], [⟨3, 1⟩]⟩]⟩ :=
  read_section_order_independent exampleHeaderBody exampleConstraintBody
    exampleHeader [⟨[⟨1, 1⟩], [⟨2, 1⟩], [⟨3, 1⟩]⟩] 33 27 (by decide) (by decide)
    (by rfl) (by rfl)
